import Mathlib

/-!
Verification development for the CareerFlow job-application tracker.

Part A embeds the frontend AI chat drawer (`AIChatDrawer` in
`src/frontend/src/components/JobCard.js`): its local state (message
transcript, input field, loading flag, session id, config flag) and the
`handleSend` handler, including the optimistic append of the user message
and the rollback on a failed request.

Part B models the soft-delete lifecycle manager and Part C the
tool-calling chat dispatcher.  The backend that implements them is not
part of the sources here (only frontend callers and documentation are),
so those definitions are modelled from the specification and marked as
such in their doc comments.
-/

namespace CareerFlow

/-- Drop leading whitespace characters from a character list. -/
def trimLeftChars : List Char → List Char
  | [] => []
  | c :: cs => if c.isWhitespace then trimLeftChars cs else c :: cs

/-- JavaScript `String.prototype.trim`: strip leading and trailing
whitespace (as used on `input` in `handleSend`). -/
def jsTrim (s : String) : String :=
  ⟨(trimLeftChars (trimLeftChars s.data.reverse).reverse)⟩

/-- A chat message as held in the drawer's `messages` React state:
a `role` (`"user"` / `"assistant"` / `"tool"`) and a `content` string. -/
structure Msg where
  role : String
  content : String
deriving DecidableEq, Repr

/-- The local state of `AIChatDrawer` (JobCard.js lines 147-151):
`messages`, `input`, `loading`, `sessionId`, `hasConfig`. -/
structure DrawerState where
  messages : List Msg
  input : String
  loading : Bool
  sessionId : Option String
  hasConfig : Bool
deriving DecidableEq, Repr

/-- Outcome of the awaited `chatApi.send` call: either a payload with
`session_id` and `response`, or a thrown error carrying the optional
`error.response.data.detail`. -/
inductive SendResult where
  | ok (session_id : String) (response : String)
  | err (detail : Option String)
deriving DecidableEq, Repr

/-- What one invocation of `handleSend` did: the resulting drawer state,
whether `chatApi.send` was actually issued, and the toast error shown
(if any). -/
structure SendOutcome where
  state : DrawerState
  requestSent : Bool
  toastError : Option String
deriving DecidableEq, Repr

/-- The drawer state right after the optimistic updates of `handleSend`
(JobCard.js lines 185-188): input cleared, the trimmed user message
appended to the transcript, `loading` set.  The request is issued
against this state. -/
def preSendState (s : DrawerState) : DrawerState :=
  { s with
    input := ""
    messages := s.messages ++ [⟨"user", jsTrim s.input⟩]
    loading := true }

/-- `AIChatDrawer.handleSend` (JobCard.js lines 177-200).  Guards: empty
trimmed input or an in-flight request return immediately; a missing LLM
config shows a toast and returns.  Otherwise the user message is
appended optimistically and the request issued; on success the session
id is stored and the assistant reply appended; on failure a toast is
shown and `setMessages(prev => prev.slice(0, -1))` drops the last
transcript entry.  `net` is the result the awaited request would
produce. -/
def handleSend (s : DrawerState) (net : SendResult) : SendOutcome :=
  if jsTrim s.input = "" ∨ s.loading then
    ⟨s, false, none⟩
  else if s.hasConfig = false then
    ⟨s, false, some "Please configure your LLM settings first"⟩
  else
    let s1 := preSendState s
    match net with
    | .ok sid resp =>
        ⟨{ s1 with
            sessionId := some sid
            messages := s1.messages ++ [⟨"assistant", resp⟩]
            loading := false },
          true, none⟩
    | .err detail =>
        ⟨{ s1 with
            messages := s1.messages.dropLast
            loading := false },
          true, some (detail.getD "Failed to send message")⟩

/-!
Part B: the Soft-Delete Lifecycle Manager.  The backend implementing it
is not among the sources (only the frontend `TrashPage` caller and the
documentation are), so the operations below are modelled from the
specification, section 4.1; the label derivation and the six trash
groups follow the frontend `TrashPage` component (src/unnamed/part_003).
-/

/-- The six soft-deletable entity kinds (spec section 2; also the six
groups of `TrashPage`'s `trash` state). -/
inductive Kind where
  | job
  | company
  | contact
  | todo
  | knowledge
  | reminder
deriving DecidableEq, Repr

/-- Modelled from the spec: the abstract entity base of section 3 —
opaque id, owner reference, kind, display fields (`title`/`name`/
`message`, optional since they are kind-specific), a job `status`
field, and the soft-delete pair `is_deleted`/`deleted_at`. -/
structure Record where
  id : String
  owner : String
  kind : Kind
  title : Option String
  name : Option String
  message : Option String
  status : Option String
  is_deleted : Bool
  deleted_at : Option Nat
deriving DecidableEq, Repr

/-- The record identified by kind, id and owner (ownership check of the
lifecycle operations). -/
def recMatches (k : Kind) (i ow : String) (r : Record) : Bool :=
  decide (r.kind = k ∧ r.id = i ∧ r.owner = ow)

/-- Lifecycle error taxonomy relevant here (spec section 7). -/
inductive LifecycleError where
  | NotFound
deriving DecidableEq, Repr

/-- Modelled from the spec: `softDelete(kind, id, ownerId)` (section
4.1).  Requires an existing, owned, not-already-deleted record; sets
`is_deleted=true, deleted_at=now`; otherwise fails with NotFound. -/
def softDelete (store : List Record) (k : Kind) (i ow : String) (now : Nat) :
    Except LifecycleError (List Record) :=
  if store.any (fun r => recMatches k i ow r && !r.is_deleted) then
    .ok (store.map (fun r =>
      if recMatches k i ow r && !r.is_deleted then
        { r with is_deleted := true, deleted_at := some now }
      else r))
  else .error .NotFound

/-- The store after a `softDelete` attempt: unchanged when the call
fails (an error response performs no write). -/
def applySoftDelete (store : List Record) (k : Kind) (i ow : String)
    (now : Nat) : List Record :=
  match softDelete store k i ow now with
  | .ok s => s
  | .error _ => store

/-- Modelled from the spec: `restore(kind, id, ownerId)` (section 4.1).
Requires the record to be currently deleted; clears
`is_deleted`/`deleted_at`; fails with NotFound otherwise. -/
def restore (store : List Record) (k : Kind) (i ow : String) :
    Except LifecycleError (List Record) :=
  if store.any (fun r => recMatches k i ow r && r.is_deleted) then
    .ok (store.map (fun r =>
      if recMatches k i ow r && r.is_deleted then
        { r with is_deleted := false, deleted_at := none }
      else r))
  else .error .NotFound

/-- Modelled from the spec: a standard list endpoint for one kind
(e.g. `GET /api/jobs`): the owner's records of that kind filtered by
`is_deleted == false` (spec sections 3 and 4.1, side effects). -/
def listStandard (store : List Record) (k : Kind) (ow : String) :
    List Record :=
  store.filter (fun r => decide (r.kind = k ∧ r.owner = ow) && !r.is_deleted)

/-- JavaScript `a || b` on optional strings: the empty string is falsy. -/
def jsOrElse (a b : Option String) : Option String :=
  match a with
  | some s => if s = "" then b else some s
  | none => b

/-- The human-readable label of a trashed record,
`item.title || item.name || item.message` as rendered by
`TrashPage.renderTrashSection` (src/unnamed/part_003 line 1480). -/
def displayLabel (r : Record) : String :=
  (jsOrElse r.title (jsOrElse r.name r.message)).getD ""

/-- One entry of the trash listing: the record's id, its display label
and its `deleted_at` timestamp. -/
structure TrashItem where
  id : String
  label : String
  deleted_at : Option Nat
deriving DecidableEq, Repr

/-- Annotation of a trashed record for the trash listing. -/
def toTrashItem (r : Record) : TrashItem :=
  ⟨r.id, displayLabel r, r.deleted_at⟩

/-- The trash entries of one kind for one owner: all records of that
kind with `is_deleted=true` owned by `ow`, annotated. -/
def trashOfKind (store : List Record) (ow : String) (k : Kind) :
    List TrashItem :=
  (store.filter (fun r =>
    decide (r.kind = k ∧ r.owner = ow) && r.is_deleted)).map toTrashItem

/-- The grouped trash listing: six groups, one per kind, exactly the
shape of `TrashPage`'s `trash` state (src/unnamed/part_003 lines
1374-1381). -/
structure TrashView where
  jobs : List TrashItem
  companies : List TrashItem
  contacts : List TrashItem
  todos : List TrashItem
  knowledge : List TrashItem
  reminders : List TrashItem
deriving DecidableEq, Repr

/-- Modelled from the spec: `listTrash(ownerId)` (section 4.1) —
grouped by kind, all records with `is_deleted=true` owned by the
owner, annotated with label and `deleted_at`. -/
def listTrash (store : List Record) (ow : String) : TrashView :=
  ⟨trashOfKind store ow .job, trashOfKind store ow .company,
   trashOfKind store ow .contact, trashOfKind store ow .todo,
   trashOfKind store ow .knowledge, trashOfKind store ow .reminder⟩

/-- The group of a trash view for a given kind. -/
def TrashView.group : TrashView → Kind → List TrashItem
  | v, .job => v.jobs
  | v, .company => v.companies
  | v, .contact => v.contacts
  | v, .todo => v.todos
  | v, .knowledge => v.knowledge
  | v, .reminder => v.reminders

/-- Total number of trashed items in a view (`TrashPage.getTotalItems`,
src/unnamed/part_003 lines 1433-1435). -/
def totalTrash (v : TrashView) : Nat :=
  v.jobs.length + v.companies.length + v.contacts.length +
    v.todos.length + v.knowledge.length + v.reminders.length

/-- Modelled from the spec: `emptyTrash(ownerId)` (section 4.1) —
permanently deletes every record across all six kinds with
`is_deleted=true` for that owner and returns the count of removed
records. -/
def emptyTrash (store : List Record) (ow : String) : List Record × Nat :=
  (store.filter (fun r => !(decide (r.owner = ow) && r.is_deleted)),
   (store.filter (fun r => decide (r.owner = ow) && r.is_deleted)).length)

/-!
Part C: the Tool-Calling Chat Dispatcher.  The backend implementing it
is not among the sources (only the frontend chat drawer, its API
bindings and the AI chat guide are), so the dispatcher below is
modelled from the specification, sections 4.2 and 7.  The six allowed
job status values come from the source
(`getStatusColor` in src/frontend/src/lib/utils.js and the status
`Select` items in JobCard.js).
-/

/-- The six allowed job status values (keys of `getStatusColor`,
src/frontend/src/lib/utils.js lines 14-24). -/
def allowedStatuses : List String :=
  ["pending", "applied", "interview", "offer", "rejected", "ghosted"]

/-- Tool-execution error taxonomy (spec section 7): InvalidArgument for
a bad tool argument, plus the record-missing and unknown-tool cases. -/
inductive ToolError where
  | InvalidArgument (msg : String)
  | MissingArgument (key : String)
  | JobNotFound (i : String)
  | UnknownTool (n : String)
deriving DecidableEq, Repr

/-- A tool invocation requested by the LLM: a name from the fixed
catalog and an argument mapping of string keys to string values
(spec section 3, ToolCall). -/
structure ToolCall where
  name : String
  args : List (String × String)
deriving DecidableEq, Repr

/-- Modelled from the spec: the `update_job_status(job_id, new_status)`
tool (section 4.2).  Validates `new_status` against the six allowed
status values and fails with InvalidArgument otherwise; updates the
owner's non-deleted job (reads respect the soft-delete filter). -/
def update_job_status (store : List Record) (ow i newStatus : String) :
    Except ToolError (List Record × String) :=
  if newStatus ∈ allowedStatuses then
    if store.any (fun r => recMatches .job i ow r && !r.is_deleted) then
      .ok (store.map (fun r =>
        if recMatches .job i ow r && !r.is_deleted then
          { r with status := some newStatus }
        else r),
        "Updated job status to " ++ newStatus)
    else .error (.JobNotFound i)
  else .error (.InvalidArgument ("Invalid status: " ++ newStatus))

/-- Modelled from the spec: dispatch of one tool call, scoped to the
authenticated owner.  Each tool name maps to exactly one data
operation; unknown names are rejected at the boundary. -/
def execTool (store : List Record) (ow : String) (c : ToolCall) :
    Except ToolError (List Record × String) :=
  if c.name = "update_job_status" then
    match c.args.lookup "job_id", c.args.lookup "new_status" with
    | some i, some st => update_job_status store ow i st
    | none, _ => .error (.MissingArgument "job_id")
    | _, none => .error (.MissingArgument "new_status")
  else .error (.UnknownTool c.name)

/-- Serialization of a tool error into the conversation. -/
def toolErrorText : ToolError → String
  | .InvalidArgument m => "InvalidArgument: " ++ m
  | .MissingArgument k => "MissingArgument: " ++ k
  | .JobNotFound i => "NotFound: job " ++ i
  | .UnknownTool n => "UnknownTool: " ++ n

/-- Modelled from the spec: one tool execution whose errors are caught
and serialized as a tool-role message rather than aborting the turn
(section 4.2); a failed call leaves the store unchanged. -/
def execToolMsg (store : List Record) (ow : String) (c : ToolCall) :
    List Record × Msg :=
  match execTool store ow c with
  | .ok (s', res) => (s', ⟨"tool", res⟩)
  | .error e => (store, ⟨"tool", toolErrorText e⟩)

/-- Sequential execution of the tool calls of one TOOL_EXECUTION round,
collecting the tool-role messages (spec section 4.2). -/
def execTools (ow : String) : List Record → List ToolCall →
    List Record × List Msg
  | store, [] => (store, [])
  | store, c :: cs =>
      let p := execToolMsg store ow c
      let q := execTools ow p.1 cs
      (q.1, p.2 :: q.2)

/-- The LLM's answer to one MODEL_CALL: a plain text reply or a list of
requested tool invocations. -/
inductive ModelResponse where
  | text (reply : String)
  | toolCalls (calls : List ToolCall)

/-- Result of one chat turn: final reply, conversation history, store,
the error flag surfaced when the round cap was exceeded, and the
number of TOOL_EXECUTION rounds executed. -/
structure TurnResult where
  reply : String
  history : List Msg
  store : List Record
  errorFlag : Bool
  rounds : Nat
deriving Repr

/-- The best-effort reply returned when the round cap is exceeded. -/
def bestEffortReply : String :=
  "The request could not be completed within the allowed tool rounds."

/-- Modelled from the spec: the per-turn state machine
`MODEL_CALL → (TOOL_EXECUTION → MODEL_CALL)*` (section 4.2).  `fuel` is
the number of TOOL_EXECUTION rounds still allowed; when the model still
requests tools with no fuel left, the turn terminates with the
best-effort reply and the error flag set.  The function is structurally
recursive on `fuel`, so the loop always terminates. -/
def runLoop (llm : List Msg → ModelResponse) (ow : String) :
    Nat → List Msg → List Record → Nat → TurnResult
  | 0, hist, store, rounds =>
    match llm hist with
    | .text r => ⟨r, hist ++ [⟨"assistant", r⟩], store, false, rounds⟩
    | .toolCalls _ => ⟨bestEffortReply, hist, store, true, rounds⟩
  | fuel + 1, hist, store, rounds =>
    match llm hist with
    | .text r => ⟨r, hist ++ [⟨"assistant", r⟩], store, false, rounds⟩
    | .toolCalls cs =>
        let p := execTools ow store cs
        runLoop llm ow fuel (hist ++ p.2) p.1 (rounds + 1)

/-- The saved LLM provider configuration (spec section 6): provider
name, model identifier, optional API key, optional base URL. -/
structure LlmConfig where
  provider : String
  model : String
  api_key : Option String
  base_url : Option String
deriving DecidableEq, Repr

/-- Chat dispatcher error taxonomy relevant to `send` (spec section
7): PreconditionFailed when no LLM configuration is saved. -/
inductive SendError where
  | PreconditionFailed
  | ProviderError
deriving DecidableEq, Repr

/-- Persistent dispatcher state: sessions (id to ordered messages), the
document store and the owner's saved LLM configuration. -/
structure DispatchState where
  sessions : List (String × List Msg)
  store : List Record
  config : Option LlmConfig

/-- Modelled from the spec: `send(message, sessionId?)` (section 4.2).
A missing LLM configuration is a precondition failure and nothing else
happens; otherwise the session is created or extended, the user message
appended, and the tool-calling loop run with the round cap `cap`. -/
def send (llm : List Msg → ModelResponse) (cap : Nat) (st : DispatchState)
    (ow msg : String) (sid : Option String) :
    Except SendError (DispatchState × String × String) :=
  match st.config with
  | none => .error .PreconditionFailed
  | some _ =>
      let sid' := match sid with
        | some s => s
        | none => "session-" ++ toString st.sessions.length
      let hist0 := ((st.sessions.lookup sid').getD []) ++ [⟨"user", msg⟩]
      let res := runLoop llm ow cap hist0 st.store 0
      .ok (⟨(sid', res.history) ::
              st.sessions.filter (fun p => !(p.1 == sid')),
            res.store, st.config⟩,
           res.reply, sid')

end CareerFlow

namespace CareerFlow

/-- C1: on a chat turn whose guards pass, the user message is appended
to the transcript before the request, and a failed request removes
exactly that optimistically-appended message, leaving the transcript
equal to its pre-send state. -/
theorem chat_failure_rolls_back_optimistic_append
    (s : DrawerState) (detail : Option String)
    (hin : jsTrim s.input ≠ "") (hload : s.loading = false)
    (hcfg : s.hasConfig = true) :
    (preSendState s).messages = s.messages ++ [⟨"user", jsTrim s.input⟩] ∧
    (handleSend s (.err detail)).requestSent = true ∧
    (handleSend s (.err detail)).state.messages = s.messages := by
  refine ⟨rfl, ?_, ?_⟩ <;>
    simp [handleSend, preSendState, hin, hload, hcfg,
      List.dropLast_concat]

/-- Witness for C1 at a concrete drawer state. -/
theorem chat_failure_rolls_back_optimistic_append_witness :
    (handleSend ⟨[⟨"user", "a"⟩], "hi", false, none, true⟩
        (.err none)).state.messages = [⟨"user", "a"⟩] :=
  (chat_failure_rolls_back_optimistic_append
    ⟨[⟨"user", "a"⟩], "hi", false, none, true⟩ none
    (by decide) rfl rfl).2.2

/-- C10: with an empty trimmed input or a send still in flight,
`handleSend` issues no request and leaves the whole drawer state —
transcript, input field, session id — unchanged. -/
theorem chat_send_guard_no_effect
    (s : DrawerState) (net : SendResult)
    (h : jsTrim s.input = "" ∨ s.loading = true) :
    handleSend s net = ⟨s, false, none⟩ := by
  have h' : jsTrim s.input = "" ∨ s.loading := by
    rcases h with h | h
    · exact Or.inl h
    · exact Or.inr (by simp [h])
  simp [handleSend, h']

/-- Witness for C10: a whitespace-only input is rejected untouched. -/
theorem chat_send_guard_no_effect_witness :
    handleSend ⟨[], "  ", false, none, true⟩ (.ok "s" "r") =
      ⟨⟨[], "  ", false, none, true⟩, false, none⟩ :=
  chat_send_guard_no_effect ⟨[], "  ", false, none, true⟩
    (.ok "s" "r") (Or.inl (by decide))

/-- The grouped trash view projects, for each kind, exactly the trash
entries of that kind. -/
theorem listTrash_group_eq (store : List Record) (ow : String) (k : Kind) :
    (listTrash store ow).group k = trashOfKind store ow k := by
  cases k <;> rfl

/-- A successful `softDelete` produces the mapped store. -/
theorem softDelete_ok_elim (store store' : List Record) (k : Kind)
    (i ow : String) (now : Nat)
    (h : softDelete store k i ow now = .ok store') :
    (store.any (fun r => recMatches k i ow r && !r.is_deleted)) = true ∧
    store' = store.map (fun r =>
      if recMatches k i ow r && !r.is_deleted then
        { r with is_deleted := true, deleted_at := some now }
      else r) := by
  unfold softDelete at h
  split at h
  · cases h
    exact ⟨by assumption, rfl⟩
  · cases h

/-- C2: after a successful `softDelete` of the entity with the given
kind, id and owner, that entity appears in no standard list endpoint
for its kind (they filter `is_deleted == false`), and it does appear in
the `listTrash` group of its kind for its owner. -/
theorem softDelete_hides_from_lists
    (store store' : List Record) (k : Kind) (i ow : String) (now : Nat)
    (h : softDelete store k i ow now = .ok store') :
    (∀ ow' : String, ∀ r ∈ listStandard store' k ow',
        ¬(r.id = i ∧ r.owner = ow)) ∧
    (∃ t ∈ (listTrash store' ow).group k, t.id = i) := by
  obtain ⟨hany, hmap⟩ := softDelete_ok_elim store store' k i ow now h
  subst hmap
  constructor
  · intro ow' r hr hri
    rw [listStandard, List.mem_filter] at hr
    obtain ⟨hmem, hpred⟩ := hr
    rw [List.mem_map] at hmem
    obtain ⟨r0, hr0, hfr0⟩ := hmem
    simp only [Bool.and_eq_true, decide_eq_true_eq, Bool.not_eq_true'] at hpred
    by_cases hc : (recMatches k i ow r0 && !r0.is_deleted) = true
    · rw [if_pos hc] at hfr0
      rw [← hfr0] at hpred
      simp at hpred
    · rw [if_neg hc] at hfr0
      subst hfr0
      apply hc
      simp only [recMatches, Bool.and_eq_true, decide_eq_true_eq,
        Bool.not_eq_true']
      exact ⟨⟨hpred.1.1, hri.1, hri.2⟩, hpred.2⟩
  · rw [listTrash_group_eq]
    rw [List.any_eq_true] at hany
    obtain ⟨r0, hr0, hp⟩ := hany
    rw [Bool.and_eq_true] at hp
    obtain ⟨hm, hd⟩ := hp
    simp only [recMatches, decide_eq_true_eq] at hm
    refine ⟨toTrashItem { r0 with is_deleted := true, deleted_at := some now },
      ?_, ?_⟩
    · rw [trashOfKind]
      apply List.mem_map_of_mem
      rw [List.mem_filter]
      constructor
      · rw [List.mem_map]
        refine ⟨r0, hr0, ?_⟩
        rw [if_pos]
        rw [Bool.and_eq_true]
        exact ⟨by simp [recMatches, hm.1, hm.2.1, hm.2.2], hd⟩
      · simp [hm.1, hm.2.2]
    · simpa [toTrashItem] using hm.2.1

/-- Witness for C2 on a one-record store. -/
theorem softDelete_hides_from_lists_witness :
    (∀ ow' : String, ∀ r ∈ listStandard
        [(⟨"1", "u", .job, some "T", none, none, some "pending", true,
            some 7⟩ : Record)] .job ow',
        ¬(r.id = "1" ∧ r.owner = "u")) ∧
    (∃ t ∈ (listTrash
        [(⟨"1", "u", .job, some "T", none, none, some "pending", true,
            some 7⟩ : Record)] "u").group .job, t.id = "1") :=
  softDelete_hides_from_lists
    [⟨"1", "u", .job, some "T", none, none, some "pending", false, none⟩]
    [⟨"1", "u", .job, some "T", none, none, some "pending", true, some 7⟩]
    .job "1" "u" 7 (by rfl)

/-- C3: `softDelete` is not idempotent — after a successful
`softDelete`, a second call on the same kind, id and owner fails with
NotFound, and the store is unchanged by the failed call. -/
theorem softDelete_second_call_not_found
    (store store' : List Record) (k : Kind) (i ow : String)
    (now now' : Nat)
    (h : softDelete store k i ow now = .ok store') :
    softDelete store' k i ow now' = .error .NotFound ∧
    applySoftDelete store' k i ow now' = store' := by
  obtain ⟨hany, hmap⟩ := softDelete_ok_elim store store' k i ow now h
  have hfalse : (store'.any (fun r => recMatches k i ow r && !r.is_deleted))
      = false := by
    subst hmap
    rw [List.any_eq_false]
    intro r hr
    rw [List.mem_map] at hr
    obtain ⟨r0, hr0, hfr0⟩ := hr
    by_cases hc : (recMatches k i ow r0 && !r0.is_deleted) = true
    · rw [if_pos hc] at hfr0
      rw [← hfr0]
      simp [recMatches]
    · rw [if_neg hc] at hfr0
      subst hfr0
      exact fun hcon => hc hcon
  constructor
  · rw [softDelete, hfalse]
    simp
  · rw [applySoftDelete, softDelete, hfalse]
    simp

/-- Witness for C3 on a one-record store. -/
theorem softDelete_second_call_not_found_witness :
    softDelete
      [(⟨"1", "u", .job, some "T", none, none, some "pending", true,
          some 7⟩ : Record)] .job "1" "u" 9 = .error .NotFound ∧
    applySoftDelete
      [(⟨"1", "u", .job, some "T", none, none, some "pending", true,
          some 7⟩ : Record)] .job "1" "u" 9 =
      [⟨"1", "u", .job, some "T", none, none, some "pending", true,
          some 7⟩] :=
  softDelete_second_call_not_found
    [⟨"1", "u", .job, some "T", none, none, some "pending", false, none⟩]
    [⟨"1", "u", .job, some "T", none, none, some "pending", true, some 7⟩]
    .job "1" "u" 7 9 (by rfl)

/-- C4: round-trip — on a store whose matching records are live
(`is_deleted=false`, `deleted_at=null`, the normal state of a
non-deleted entity), `restore` after a successful `softDelete` of the
entity succeeds and returns the original store: every field of every
record is as before, with `is_deleted` back to `false` and `deleted_at`
back to `null`. -/
theorem softDelete_restore_roundtrip
    (store store' : List Record) (k : Kind) (i ow : String) (now : Nat)
    (hclean : ∀ r ∈ store, recMatches k i ow r = true →
      r.is_deleted = false ∧ r.deleted_at = none)
    (h : softDelete store k i ow now = .ok store') :
    restore store' k i ow = .ok store := by
  obtain ⟨hany, hmap⟩ := softDelete_ok_elim store store' k i ow now h
  rw [List.any_eq_true] at hany
  obtain ⟨r0, hr0, hp⟩ := hany
  rw [Bool.and_eq_true] at hp
  have hcond : (store'.any (fun r => recMatches k i ow r && r.is_deleted))
      = true := by
    subst hmap
    rw [List.any_eq_true]
    refine ⟨{ r0 with is_deleted := true, deleted_at := some now }, ?_, ?_⟩
    · rw [List.mem_map]
      refine ⟨r0, hr0, ?_⟩
      rw [if_pos]
      rw [Bool.and_eq_true]
      exact hp
    · simp only [recMatches, Bool.and_eq_true, decide_eq_true_eq] at hp ⊢
      exact ⟨⟨hp.1.1, hp.1.2.1, hp.1.2.2⟩, by trivial⟩
  rw [restore, hcond]
  simp only [if_true]
  subst hmap
  rw [List.map_map]
  have hpt : ∀ r ∈ store,
      ((fun r => if recMatches k i ow r && r.is_deleted then
          { r with is_deleted := false, deleted_at := none } else r) ∘
        (fun r => if recMatches k i ow r && !r.is_deleted then
          { r with is_deleted := true, deleted_at := some now } else r)) r
        = id r := by
    intro r hr
    by_cases hc : recMatches k i ow r = true
    · obtain ⟨hdel, hda⟩ := hclean r hr hc
      obtain ⟨ri, rw', rk, rt, rn, rm, rs, rd, rda⟩ := r
      simp only [recMatches, decide_eq_true_eq] at hc
      simp only at hdel hda
      subst hdel hda
      simp [recMatches, hc.1, hc.2.1, hc.2.2, Function.comp]
    · have hcf : recMatches k i ow r = false := by
        cases hrm : recMatches k i ow r
        · rfl
        · exact absurd hrm hc
      simp [Function.comp, hcf]
  rw [List.map_congr_left hpt, List.map_id]

/-- Witness for C4 on a one-record store. -/
theorem softDelete_restore_roundtrip_witness :
    restore
      [(⟨"1", "u", .job, some "T", none, none, some "pending", true,
          some 7⟩ : Record)] .job "1" "u" =
      .ok [⟨"1", "u", .job, some "T", none, none, some "pending", false,
          none⟩] :=
  softDelete_restore_roundtrip
    [⟨"1", "u", .job, some "T", none, none, some "pending", false, none⟩]
    [⟨"1", "u", .job, some "T", none, none, some "pending", true, some 7⟩]
    .job "1" "u" 7 (by decide) (by rfl)

/-- The owner's trashed records, counted in one flat filter, equal the
sum of the six per-kind trash groups: every record's kind is one of the
six, so the groups partition the owner's trash. -/
theorem trash_count_partition (store : List Record) (ow : String) :
    (store.filter (fun r => decide (r.owner = ow) && r.is_deleted)).length =
      totalTrash (listTrash store ow) := by
  induction store with
  | nil => rfl
  | cons r l ih =>
    simp only [totalTrash, listTrash, trashOfKind, List.length_map,
      List.filter_cons] at ih ⊢
    by_cases howq : r.owner = ow
    · by_cases hdq : r.is_deleted = true
      · cases hk : r.kind <;> simp [howq, hdq, hk] at ih ⊢ <;> omega
      · have hdf : r.is_deleted = false := by
          cases h2 : r.is_deleted
          · rfl
          · exact absurd h2 hdq
        simp only [hdf, Bool.and_false, if_false] at ih ⊢
        simpa [hdf] using ih
    · simp only [howq] at ih ⊢
      simpa [howq] using ih

/-- C5: `emptyTrash(ownerId)` leaves zero trashed records for that
owner, returns exactly the number of the owner's trashed records
across the six kinds (as counted by the grouped trash listing), keeps
every record of other owners and every non-deleted record, and adds
nothing. -/
theorem emptyTrash_spec (store : List Record) (ow : String) :
    totalTrash (listTrash (emptyTrash store ow).1 ow) = 0 ∧
    (emptyTrash store ow).2 = totalTrash (listTrash store ow) ∧
    (∀ r ∈ store, (r.owner ≠ ow ∨ r.is_deleted = false) →
      r ∈ (emptyTrash store ow).1) ∧
    (∀ r ∈ (emptyTrash store ow).1, r ∈ store) := by
  refine ⟨?_, ?_, ?_, ?_⟩
  · rw [← trash_count_partition]
    rw [emptyTrash]
    rw [List.filter_filter]
    simp
  · rw [emptyTrash, ← trash_count_partition]
  · intro r hr hcase
    rw [emptyTrash]
    rw [List.mem_filter]
    refine ⟨hr, ?_⟩
    rcases hcase with hno | hnd
    · simp [hno]
    · simp [hnd]
  · intro r hr
    rw [emptyTrash] at hr
    exact (List.mem_filter.mp hr).1

/-- Witness for C5 on a two-record store (one trashed, one live). -/
theorem emptyTrash_spec_witness :
    totalTrash (listTrash (emptyTrash
      [(⟨"1", "u", .job, some "T", none, none, some "pending", true,
          some 7⟩ : Record),
       ⟨"2", "u", .todo, some "W", none, none, none, false, none⟩]
      "u").1 "u") = 0 ∧
    (emptyTrash
      [(⟨"1", "u", .job, some "T", none, none, some "pending", true,
          some 7⟩ : Record),
       ⟨"2", "u", .todo, some "W", none, none, none, false, none⟩]
      "u").2 = 1 ∧
    (⟨"2", "u", .todo, some "W", none, none, none, false, none⟩ : Record)
      ∈ (emptyTrash
      [(⟨"1", "u", .job, some "T", none, none, some "pending", true,
          some 7⟩ : Record),
       ⟨"2", "u", .todo, some "W", none, none, none, false, none⟩]
      "u").1 := by
  have h := emptyTrash_spec
    [(⟨"1", "u", .job, some "T", none, none, some "pending", true,
        some 7⟩ : Record),
     ⟨"2", "u", .todo, some "W", none, none, none, false, none⟩] "u"
  refine ⟨h.1, ?_, ?_⟩
  · rw [h.2.1]; rfl
  · exact h.2.2.1 _ (by simp) (Or.inr rfl)

/-- C6 helper is in Part C below; C7: a trash item belongs to the group
of kind `k` of the grouped trash listing for `ow` exactly when it is
the annotation — id, `title || name || message` label, `deleted_at` —
of a record of the store with that kind, that owner and
`is_deleted=true`.  The listing has exactly the six per-kind groups of
`TrashView`. -/
theorem listTrash_members (store : List Record) (ow : String) (k : Kind)
    (it : TrashItem) :
    it ∈ (listTrash store ow).group k ↔
      ∃ r, r ∈ store ∧ r.kind = k ∧ r.owner = ow ∧ r.is_deleted = true ∧
        it = ⟨r.id, displayLabel r, r.deleted_at⟩ := by
  rw [listTrash_group_eq, trashOfKind]
  simp only [List.mem_map, List.mem_filter, Bool.and_eq_true,
    decide_eq_true_eq, toTrashItem]
  constructor
  · rintro ⟨a, ⟨h1, ⟨h2, h3⟩, h4⟩, h5⟩
    exact ⟨a, h1, h2, h3, h4, h5.symm⟩
  · rintro ⟨a, h1, h2, h3, h4, h5⟩
    exact ⟨a, ⟨h1, ⟨h2, h3⟩, h4⟩, h5.symm⟩

/-- Witness for C7: a concrete trashed company appears in the
`companies` group with its `name` as label. -/
theorem listTrash_members_witness :
    (⟨"9", "Acme", some 4⟩ : TrashItem) ∈ (listTrash
      [(⟨"9", "u", .company, none, some "Acme", none, none, true,
          some 4⟩ : Record)] "u").group .company :=
  (listTrash_members
    [⟨"9", "u", .company, none, some "Acme", none, none, true, some 4⟩]
    "u" .company ⟨"9", "Acme", some 4⟩).mpr
    ⟨⟨"9", "u", .company, none, some "Acme", none, none, true, some 4⟩,
      by simp, rfl, rfl, rfl, by rfl⟩

/-- Messages already in the conversation stay in it through the
tool-calling loop: the loop only appends. -/
theorem runLoop_history_superset (llm : List Msg → ModelResponse)
    (ow : String) :
    ∀ (fuel : Nat) (hist : List Msg) (store : List Record) (r0 : Nat)
      (m : Msg), m ∈ hist → m ∈ (runLoop llm ow fuel hist store r0).history := by
  intro fuel
  induction fuel with
  | zero =>
    intro hist store r0 m hm
    simp only [runLoop]
    cases hllm : llm hist <;> simp [hllm, hm]
  | succ n ih =>
    intro hist store r0 m hm
    simp only [runLoop]
    cases hllm : llm hist
    · simp [hllm, hm]
    · simp only [hllm]
      exact ih _ _ _ m (List.mem_append_left _ hm)

/-- Rounds are bounded by the remaining fuel, and the error flag is
only raised together with the best-effort reply. -/
theorem runLoop_rounds_le (llm : List Msg → ModelResponse) (ow : String) :
    ∀ (fuel : Nat) (hist : List Msg) (store : List Record) (r0 : Nat),
      (runLoop llm ow fuel hist store r0).rounds ≤ r0 + fuel ∧
      ((runLoop llm ow fuel hist store r0).errorFlag = true →
        (runLoop llm ow fuel hist store r0).reply = bestEffortReply) := by
  intro fuel
  induction fuel with
  | zero =>
    intro hist store r0
    simp only [runLoop]
    cases hllm : llm hist <;> simp [hllm]
  | succ n ih =>
    intro hist store r0
    simp only [runLoop]
    cases hllm : llm hist
    · simp [hllm]
    · simp only [hllm]
      obtain ⟨h1, h2⟩ := ih ((hist ++ (execTools ow store _).2))
        (execTools ow store _).1 (r0 + 1)
      exact ⟨by omega, h2⟩

/-- C9: every chat turn terminates — the MODEL_CALL/TOOL_EXECUTION loop
is structurally recursive on its round budget, executes at most `cap`
TOOL_EXECUTION rounds, and when the cap is exceeded it terminates with
the best-effort partial reply and the error flag set. -/
theorem toolLoop_round_cap (llm : List Msg → ModelResponse) (ow : String)
    (cap : Nat) (hist : List Msg) (store : List Record) :
    (runLoop llm ow cap hist store 0).rounds ≤ cap ∧
    ((runLoop llm ow cap hist store 0).errorFlag = true →
      (runLoop llm ow cap hist store 0).reply = bestEffortReply) := by
  obtain ⟨h1, h2⟩ := runLoop_rounds_le llm ow cap hist store 0
  exact ⟨by omega, h2⟩

/-- Witness for C9: a model that always requests tool calls is cut off
after the cap with the best-effort reply. -/
theorem toolLoop_round_cap_witness :
    (runLoop (fun _ => ModelResponse.toolCalls []) "u" 2 [] [] 0).rounds
      ≤ 2 ∧
    (runLoop (fun _ => ModelResponse.toolCalls []) "u" 2 [] [] 0).reply
      = bestEffortReply :=
  ⟨(toolLoop_round_cap (fun _ => ModelResponse.toolCalls []) "u" 2 [] []).1,
   (toolLoop_round_cap (fun _ => ModelResponse.toolCalls []) "u" 2 [] []).2
     (by rfl)⟩

/-- C8: a chat send with no saved LLM provider configuration fails as a
precondition failure and makes no LLM call.  Frontend: `handleSend`
shows the configuration toast and issues no request, leaving the drawer
state untouched (no retry happens — the handler just returns).
Dispatcher: `send` returns PreconditionFailed for every possible LLM
oracle (so no provider call can have been made) without touching any
state. -/
theorem send_requires_llm_config
    (s : DrawerState) (net : SendResult)
    (llm : List Msg → ModelResponse) (cap : Nat) (st : DispatchState)
    (ow msg : String) (sid : Option String)
    (hin : jsTrim s.input ≠ "") (hload : s.loading = false)
    (hcfg : s.hasConfig = false) (hc : st.config = none) :
    handleSend s net =
      ⟨s, false, some "Please configure your LLM settings first"⟩ ∧
    send llm cap st ow msg sid = .error .PreconditionFailed := by
  constructor
  · simp [handleSend, hin, hload, hcfg]
  · simp [send, hc]

/-- Witness for C8 at a concrete drawer state and dispatcher state. -/
theorem send_requires_llm_config_witness :
    handleSend ⟨[], "hi", false, none, false⟩ (.ok "s" "r") =
      ⟨⟨[], "hi", false, none, false⟩, false,
        some "Please configure your LLM settings first"⟩ ∧
    send (fun _ => ModelResponse.text "x") 5 ⟨[], [], none⟩ "u" "hello"
        none = .error .PreconditionFailed :=
  send_requires_llm_config ⟨[], "hi", false, none, false⟩ (.ok "s" "r")
    (fun _ => ModelResponse.text "x") 5 ⟨[], [], none⟩ "u" "hello" none
    (by decide) rfl rfl rfl

/-- C6: `update_job_status` with a status outside the six allowed
values fails with an InvalidArgument tool error, the store (hence the
targeted job's status field) is unchanged by the failed call, and when
the model requests that call the serialized error appears as a
tool-role message in the turn's transcript. -/
theorem update_job_status_invalid_status
    (store : List Record) (ow i newStatus : String)
    (llm : List Msg → ModelResponse) (hist : List Msg) (f r0 : Nat)
    (hst : newStatus ∉ allowedStatuses) :
    execTool store ow ⟨"update_job_status",
        [("job_id", i), ("new_status", newStatus)]⟩ =
      .error (.InvalidArgument ("Invalid status: " ++ newStatus)) ∧
    (execToolMsg store ow ⟨"update_job_status",
        [("job_id", i), ("new_status", newStatus)]⟩).1 = store ∧
    (llm hist = .toolCalls [⟨"update_job_status",
        [("job_id", i), ("new_status", newStatus)]⟩] →
      (⟨"tool", "InvalidArgument: " ++ ("Invalid status: " ++ newStatus)⟩
          : Msg) ∈ (runLoop llm ow (f + 1) hist store r0).history) := by
  have hlk : execTool store ow ⟨"update_job_status",
      [("job_id", i), ("new_status", newStatus)]⟩ =
      update_job_status store ow i newStatus := rfl
  have h1 : execTool store ow ⟨"update_job_status",
      [("job_id", i), ("new_status", newStatus)]⟩ =
      .error (.InvalidArgument ("Invalid status: " ++ newStatus)) := by
    rw [hlk, update_job_status, if_neg hst]
  refine ⟨h1, ?_, ?_⟩
  · rw [execToolMsg, h1]
  · intro hllm
    simp only [runLoop, hllm]
    apply runLoop_history_superset
    have hp : execTools ow store [⟨"update_job_status",
        [("job_id", i), ("new_status", newStatus)]⟩] =
        (store, [⟨"tool",
          "InvalidArgument: " ++ ("Invalid status: " ++ newStatus)⟩]) := by
      simp [execTools, execToolMsg, h1, toolErrorText]
    rw [hp]
    simp

/-- Witness for C6: the invalid status value "maybe" on a one-job
store. -/
theorem update_job_status_invalid_status_witness :
    (execToolMsg
      [(⟨"1", "u", .job, some "T", none, none, some "pending", false,
          none⟩ : Record)] "u"
      ⟨"update_job_status", [("job_id", "1"), ("new_status", "maybe")]⟩).1 =
      [⟨"1", "u", .job, some "T", none, none, some "pending", false,
          none⟩] ∧
    (⟨"tool", "InvalidArgument: " ++ ("Invalid status: " ++ "maybe")⟩
        : Msg) ∈ (runLoop
      (fun _ => ModelResponse.toolCalls
        [⟨"update_job_status", [("job_id", "1"), ("new_status", "maybe")]⟩])
      "u" 1 []
      [⟨"1", "u", .job, some "T", none, none, some "pending", false,
          none⟩] 0).history := by
  have h := update_job_status_invalid_status
    [⟨"1", "u", .job, some "T", none, none, some "pending", false, none⟩]
    "u" "1" "maybe"
    (fun _ => ModelResponse.toolCalls
      [⟨"update_job_status", [("job_id", "1"), ("new_status", "maybe")]⟩])
    [] 0 0 (by decide)
  exact ⟨h.2.1, h.2.2 rfl⟩

end CareerFlow
